import Mathlib

/-!
Verification development for the sales-insight dashboard
(`sales_metrics_db/plots.py`).  The pandas DataFrame is shallowly embedded
as a `Table`: a list of declared column names together with a list of rows,
each row an association list from column names to `Cell` values.  A cell is
either a numeric value (modelled exactly, as a rational, in place of the
float used by pandas), a non-numeric string, a date value (standing for a
cell that `pd.to_datetime` parses successfully), or a missing value (NaN).

Modelling conventions, each justified by the pandas API used in the source:
* `pd.to_numeric(col, errors="coerce")` maps numeric cells to their value
  and every other cell to NaN; modelled by `toNum : Cell → Option ℚ`.
* `Series.sum()` / `Series.mean()` skip NaN (`skipna=True`, `min_count=0`),
  so an all-NaN or empty series sums to 0 and means to NaN (`none`).
* Summing a series that still contains a non-numeric object raises a
  `TypeError` in pandas; modelled by `sumCells` returning `Except.error`.
* `df.groupby(c, dropna=False)` keeps NaN keys as their own single group
  and emits groups sorted by ascending key (missing last); modelled by
  `groupKeys` (sorted, deduplicated key list) and `groupRows`.
* `sort_values(ascending=False)` is modelled as a stable descending
  insertion sort (numpy's introsort is stable on the small segments that
  arise here, and is in any case a deterministic function of its input).
* `float(x)` never changes a numeric value in the embedding (ℚ is exact).
-/

deriving instance DecidableEq for Except

namespace SalesDash

/-- A single DataFrame cell: numeric, non-numeric string, date-parseable,
or missing (NaN). -/
inductive Cell where
  | num (q : ℚ)
  | str (s : String)
  | date (y : Int) (m : Nat) (d : Nat)
  | missing
deriving DecidableEq

/-- A row: association list from column names to cells.  A column declared
by the table but absent from the row reads as `Cell.missing`. -/
abbrev Row := List (String × Cell)

/-- An in-memory DataFrame: declared columns plus ordered rows. -/
structure Table where
  cols : List String
  rows : List Row
deriving DecidableEq

/-- Read one cell of a row; absent entries are NaN. -/
def getCell (r : Row) (c : String) : Cell :=
  match r.lookup c with
  | some v => v
  | none => Cell.missing

/-- `pd.to_numeric(_, errors="coerce")` on one cell. -/
def toNum : Cell → Option ℚ
  | Cell.num q => some q
  | _ => none

/-- `pd.to_datetime(_, errors="coerce")` on one cell: only date cells
parse; everything else becomes NaT. -/
def toDate : Cell → Option (Int × Nat × Nat)
  | Cell.date y m d => some (y, m, d)
  | _ => none

/-- A cell that makes `Series.sum` raise a TypeError: anything that is
neither numeric nor NaN. -/
def isBadNum : Cell → Bool
  | Cell.num _ => false
  | Cell.missing => false
  | _ => true

/-- Error message of `_ensure_cols` (`ValueError` in the source). -/
def schemaErr : String := "Missing required columns"

/-- Error message for summing a non-numeric object (pandas `TypeError`). -/
def typeErr : String := "unsupported operand type for +"

/-- `Series.sum()` over raw cells: NaN skipped, numeric added, any other
object raises. -/
def sumCells : List Cell → Except String ℚ
  | [] => Except.ok 0
  | c :: cs =>
    match c with
    | Cell.num q => (sumCells cs).map (fun s => q + s)
    | Cell.missing => sumCells cs
    | _ => Except.error typeErr

/-- `_ensure_cols(df, cols)` from plots.py. -/
def ensure_cols (T : Table) (cs : List String) : Except String Unit :=
  if cs.all (fun c => T.cols.contains c) then Except.ok () else Except.error schemaErr

/-- The numeric-coercible entries of a column, in row order
(`pd.to_numeric(df[c], errors="coerce")` with the NaNs dropped). -/
def numericCells (T : Table) (c : String) : List ℚ :=
  T.rows.filterMap (fun r => toNum (getCell r c))

/-- Insert into a sorted list: `a` goes before the first `b` with
`le a b`.  Stable when `le` is total. -/
def insertLe {α : Type _} (le : α → α → Bool) (a : α) : List α → List α
  | [] => [a]
  | b :: l => if le a b then a :: b :: l else b :: insertLe le a l

/-- Insertion sort by a boolean relation (stable). -/
def sortLe {α : Type _} (le : α → α → Bool) : List α → List α
  | [] => []
  | a :: l => insertLe le a (sortLe le l)

/-- Rank used to order cells of different kinds when they appear as group
keys (pandas sorts group keys ascending with NaN last; keys of mixed kinds
raise in pandas, and the model simply fixes a deterministic order). -/
def cellRank : Cell → Nat
  | Cell.num _ => 0
  | Cell.date _ _ _ => 1
  | Cell.str _ => 2
  | Cell.missing => 3

/-- Chronological order on date cells. -/
def dateLe (a b : Int × Nat × Nat) : Bool :=
  decide (a.1 < b.1) ||
    (decide (a.1 = b.1) &&
      (decide (a.2.1 < b.2.1) ||
        (decide (a.2.1 = b.2.1) && decide (a.2.2 ≤ b.2.2))))

/-- Total order on cells used by `groupby(sort=True)`: numeric keys by
value, strings lexicographically, dates chronologically, NaN last. -/
def cellLe (a b : Cell) : Bool :=
  if cellRank a < cellRank b then true
  else if cellRank b < cellRank a then false
  else
    match a, b with
    | Cell.num x, Cell.num y => decide (x ≤ y)
    | Cell.str x, Cell.str y => decide (x ≤ y)
    | Cell.date y1 m1 d1, Cell.date y2 m2 d2 => dateLe (y1, m1, d1) (y2, m2, d2)
    | _, _ => true

/-- The distinct keys of `df.groupby(col, dropna=False)`, in the order the
groups are emitted (ascending, NaN last). -/
def groupKeys (T : Table) (key : String) : List Cell :=
  sortLe cellLe ((T.rows.map (fun r => getCell r key)).dedup)

/-- The rows of the group with key `k`, in original row order. -/
def groupRows (T : Table) (key : String) (k : Cell) : List Row :=
  T.rows.filter (fun r => decide (getCell r key = k))

/-- Per-group sums of the raw measure column over a given key list. -/
def sumGroupsAux (T : Table) (key mcol : String) : List Cell → Except String (List (Cell × ℚ))
  | [] => Except.ok []
  | k :: ks =>
    match sumCells ((groupRows T key k).map (fun r => getCell r mcol)) with
    | Except.error e => Except.error e
    | Except.ok s =>
      match sumGroupsAux T key mcol ks with
      | Except.error e => Except.error e
      | Except.ok rest => Except.ok ((k, s) :: rest)

/-- `df.groupby(key, dropna=False)[mcol].sum()`: one `(key, sum)` pair per
group, in groupby (ascending-key) order. -/
def sumGroups (T : Table) (key mcol : String) : Except String (List (Cell × ℚ)) :=
  sumGroupsAux T key mcol (groupKeys T key)

/-- Descending comparison on the sum component. -/
def geSnd (a b : Cell × ℚ) : Bool := decide (b.2 ≤ a.2)

/-- `sort_values(ascending=False)` on `(key, sum)` pairs. -/
def sortDesc : List (Cell × ℚ) → List (Cell × ℚ) := sortLe geSnd

/-- `g.head(n)` for an integer `n` (pandas: negative `n` drops `|n|`
entries from the end). -/
def pdHead {α : Type _} (n : Int) (l : List α) : List α :=
  if 0 ≤ n then l.take n.toNat else l.take (l.length - (-n).toNat)

/-- `kpi_total_sales(df)` from plots.py. -/
def kpi_total_sales (T : Table) : Except String ℚ :=
  match ensure_cols T ["Item_Outlet_Sales"] with
  | Except.error e => Except.error e
  | Except.ok _ => Except.ok (numericCells T "Item_Outlet_Sales").sum

/-- `kpi_avg_sales_per_item(df)` from plots.py; `none` is the float NaN
returned by `mean()` on an empty or all-NaN series. -/
def kpi_avg_sales_per_item (T : Table) : Except String (Option ℚ) :=
  match ensure_cols T ["Item_Outlet_Sales"] with
  | Except.error e => Except.error e
  | Except.ok _ =>
    let xs := numericCells T "Item_Outlet_Sales"
    Except.ok (if xs.length = 0 then none else some (xs.sum / xs.length))

/-- Shared groupby-sum-sort-head pipeline of `kpi_highest_selling_category`
and `kpi_best_outlet`: the winning key and its total, or the
`(None, 0.0)` sentinel when there are no groups. -/
def topGroupBy (T : Table) (col : String) : Except String (Option Cell × ℚ) :=
  match sumGroups T col "Item_Outlet_Sales" with
  | Except.error e => Except.error e
  | Except.ok g =>
    match sortDesc g with
    | [] => Except.ok (none, 0)
    | x :: _ => Except.ok (some x.1, x.2)

/-- `kpi_highest_selling_category(df, cat_col)` from plots.py. -/
def kpi_highest_selling_category (T : Table) (cat_col : String) : Except String (Option Cell × ℚ) :=
  match ensure_cols T ["Item_Outlet_Sales", cat_col] with
  | Except.error e => Except.error e
  | Except.ok _ => topGroupBy T cat_col

/-- The grouping column chosen by `kpi_best_outlet`:
`Outlet_Identifier` when that column exists, else `Outlet_Type`. -/
def outletCol (T : Table) : String :=
  if T.cols.contains "Outlet_Identifier" then "Outlet_Identifier" else "Outlet_Type"

/-- `kpi_best_outlet(df)` from plots.py. -/
def kpi_best_outlet (T : Table) : Except String (Option Cell × ℚ) :=
  match ensure_cols T ["Item_Outlet_Sales", outletCol T] with
  | Except.error e => Except.error e
  | Except.ok _ => topGroupBy T (outletCol T)

/-- `_bar_series(df, group_col, top_n)` from plots.py, at the data level:
the ranked `(key, total_sales)` list feeding the bar chart.  `if top_n:`
is Python truthiness, so a limit of `0` is ignored. -/
def bar_series (T : Table) (group_col : String) (top_n : Option Int) : Except String (List (Cell × ℚ)) :=
  match ensure_cols T ["Item_Outlet_Sales", group_col] with
  | Except.error e => Except.error e
  | Except.ok _ =>
    match sumGroups T group_col "Item_Outlet_Sales" with
    | Except.error e => Except.error e
    | Except.ok g =>
      let g := sortDesc g
      match top_n with
      | some n => if n = 0 then Except.ok g else Except.ok (pdHead n g)
      | none => Except.ok g

/-- `fig_sales_by_item_type(df, top_n)`, at the data level. -/
def fig_sales_by_item_type (T : Table) (top_n : Option Int) : Except String (List (Cell × ℚ)) :=
  bar_series T "Item_Type" top_n

/-- `fig_sales_by_outlet_type(df)`, at the data level. -/
def fig_sales_by_outlet_type (T : Table) : Except String (List (Cell × ℚ)) :=
  bar_series T "Outlet_Type" none

/-- `fig_sales_by_outlet_size(df)`, at the data level. -/
def fig_sales_by_outlet_size (T : Table) : Except String (List (Cell × ℚ)) :=
  bar_series T "Outlet_Size" none

/-- `fig_location_contribution(df, hole)`, at the data level: per-location
sums in groupby order (the source applies no `sort_values` here).  The
`hole` argument is donut styling only. -/
def fig_location_contribution (T : Table) (_hole : ℚ) : Except String (List (Cell × ℚ)) :=
  match ensure_cols T ["Item_Outlet_Sales", "Outlet_Location_Type"] with
  | Except.error e => Except.error e
  | Except.ok _ =>
    match sumGroups T "Outlet_Location_Type" "Item_Outlet_Sales" with
    | Except.error e => Except.error e
    | Except.ok g => Except.ok g

/-- `fig_mrp_distribution(df, bins, show_quantiles)`, at the data level:
the raw `Item_MRP` column that the histogram is drawn from (bin layout and
quantile markers are chart styling, outside the aggregation core). -/
def fig_mrp_distribution (T : Table) (_bins : Nat) (_show_quantiles : Bool) : Except String (List Cell) :=
  match ensure_cols T ["Item_MRP"] with
  | Except.error e => Except.error e
  | Except.ok _ => Except.ok (T.rows.map (fun r => getCell r "Item_MRP"))

/-- `fig_visibility_scatter(df, color)`, at the data level: the plotted
(x, y) cell pairs, the colour column actually used (silently dropped when
absent) and the hover columns actually used. -/
def fig_visibility_scatter (T : Table) (color : String) :
    Except String (List (Cell × Cell) × Option String × Option (List String)) :=
  match ensure_cols T ["Item_Visibility", "Item_Outlet_Sales"] with
  | Except.error e => Except.error e
  | Except.ok _ =>
    let hover :=
      if T.cols.contains "Outlet_Type" && T.cols.contains "Outlet_Location_Type" then
        some ["Outlet_Type", "Outlet_Location_Type"]
      else none
    let colorUsed := if T.cols.contains color then some color else none
    Except.ok
      (T.rows.map (fun r => (getCell r "Item_Visibility", getCell r "Item_Outlet_Sales")),
       colorUsed, hover)

/-- `fig_sales_box_by_category(df, cat_col, log_y)`, at the data level:
the (category, sales) cell pairs the box plot summarises. -/
def fig_sales_box_by_category (T : Table) (cat_col : String) (_log_y : Bool) :
    Except String (List (Cell × Cell)) :=
  match ensure_cols T ["Item_Outlet_Sales", cat_col] with
  | Except.error e => Except.error e
  | Except.ok _ =>
    Except.ok (T.rows.map (fun r => (getCell r cat_col, getCell r "Item_Outlet_Sales")))

/-- Calendar frequencies accepted by the trend chart (`freq='M','Q','Y'`,
the values documented in the source). -/
inductive Freq where
  | M
  | Q
  | Y
deriving DecidableEq

/-- X-axis values of the three trend-chart branches: a calendar-period
index, a numeric establishment year, or a raw row index. -/
inductive TrendX where
  | pidx (i : Int)
  | year (y : ℚ)
  | idx (n : Nat)
deriving DecidableEq

/-- Identify the calendar bucket of a date under `pd.Grouper(freq=...)`:
consecutive integers index consecutive periods. -/
def periodIdx (f : Freq) (y : Int) (m : Nat) : Int :=
  match f with
  | Freq.M => y * 12 + ((m - 1 : Nat) : Int)
  | Freq.Q => y * 4 + (((m - 1 : Nat) / 3 : Nat) : Int)
  | Freq.Y => y

/-- The rows surviving `dropna(subset=["_dt"])`: parsed date plus coerced
sales value. -/
def datedRows (T : Table) (dc : String) : List ((Int × Nat × Nat) × Option ℚ) :=
  T.rows.filterMap (fun r =>
    (toDate (getCell r dc)).map (fun dv => (dv, toNum (getCell r "Item_Outlet_Sales"))))

/-- Total coerced sales falling in calendar bucket `i`. -/
def bucketSum (T : Table) (dc : String) (f : Freq) (i : Int) : ℚ :=
  ((datedRows T dc).filterMap (fun p =>
    if periodIdx f p.1.1 p.1.2.1 = i then p.2 else none)).sum

/-- Date branch of `fig_sales_trend`: one point per calendar period from
the earliest to the latest occupied one (`pd.Grouper` emits the empty
intermediate periods as zero sums, like resampling). -/
def dateBranch (T : Table) (dc : String) (f : Freq) : List (TrendX × ℚ) :=
  match (datedRows T dc).map (fun p => periodIdx f p.1.1 p.1.2.1) with
  | [] => []
  | i0 :: rest =>
    let lo := rest.foldl min i0
    let hi := rest.foldl max i0
    (List.range (hi - lo + 1).toNat).map
      (fun k => (TrendX.pidx (lo + k), bucketSum T dc f (lo + k)))

/-- The distinct numeric establishment years after
`to_numeric(errors="coerce")` and `dropna`, in groupby (ascending) order. -/
def yearKeys (T : Table) : List ℚ :=
  sortLe (fun a b => decide (a ≤ b))
    ((T.rows.filterMap (fun r => toNum (getCell r "Outlet_Establishment_Year"))).dedup)

/-- The rows whose establishment year coerces to `y`. -/
def yearRows (T : Table) (y : ℚ) : List Row :=
  T.rows.filter (fun r => decide (toNum (getCell r "Outlet_Establishment_Year") = some y))

/-- Per-year sums of the raw sales column (the year branch sums
`df["Item_Outlet_Sales"]` without coercion). -/
def sumYears (T : Table) : List ℚ → Except String (List (ℚ × ℚ))
  | [] => Except.ok []
  | y :: ys =>
    match sumCells ((yearRows T y).map (fun r => getCell r "Item_Outlet_Sales")) with
    | Except.error e => Except.error e
    | Except.ok s =>
      match sumYears T ys with
      | Except.error e => Except.error e
      | Except.ok rest => Except.ok ((y, s) :: rest)

/-- Year branch of `fig_sales_trend`. -/
def yearBranchT (T : Table) : Except String (List (TrendX × ℚ)) :=
  match sumYears T (yearKeys T) with
  | Except.error e => Except.error e
  | Except.ok l => Except.ok (l.map (fun p => (TrendX.year p.1, p.2)))

/-- Index-order branch of `fig_sales_trend`: each row is its own group, so
a NaN sale shows as the group sum 0. -/
def idxBranch (T : Table) : List (TrendX × ℚ) :=
  T.rows.enum.map (fun p => (TrendX.idx p.1, ((toNum (getCell p.2 "Item_Outlet_Sales")).getD 0)))

/-- `fig_sales_trend(df, date_col, freq)` from plots.py, at the data
level.  `if date_col and date_col in df.columns:` is Python truthiness, so
an empty string behaves like `None`. -/
def fig_sales_trend (T : Table) (date_col : Option String) (freq : Freq) :
    Except String (List (TrendX × ℚ)) :=
  match ensure_cols T ["Item_Outlet_Sales"] with
  | Except.error e => Except.error e
  | Except.ok _ =>
    match date_col with
    | some dc =>
      if dc ≠ "" ∧ T.cols.contains dc then Except.ok (dateBranch T dc freq)
      else if T.cols.contains "Outlet_Establishment_Year" then yearBranchT T
      else Except.ok (idxBranch T)
    | none =>
      if T.cols.contains "Outlet_Establishment_Year" then yearBranchT T
      else Except.ok (idxBranch T)

/-- Default column list of `fig_corr_heatmap`. -/
def defaultCorrCols : List String :=
  ["Item_Weight", "Item_MRP", "Item_Visibility", "Item_Outlet_Sales"]

/-- Error message of the heatmap when no requested column exists. -/
def corrErr : String := "No valid numeric columns found for correlation heatmap."

/-- `fig_corr_heatmap(df, cols)` column handling: requested columns are
silently filtered to those present; only an empty remainder raises. -/
def fig_corr_heatmap (T : Table) (cols? : Option (List String)) : Except String (List String) :=
  let cols := cols?.getD defaultCorrCols
  let kept := cols.filter (fun c => T.cols.contains c)
  if kept.isEmpty then Except.error corrErr else Except.ok kept

/-- Rows where both columns coerce to numbers: the pairwise sample that
`DataFrame.corr` uses for one entry. -/
def pairColumn (T : Table) (c1 c2 : String) : List (ℚ × ℚ) :=
  T.rows.filterMap (fun r =>
    match toNum (getCell r c1), toNum (getCell r c2) with
    | some x, some y => some (x, y)
    | _, _ => none)

/-- Mean of a list of rationals (0 on the empty list, a case `corr` only
reaches with an empty pairwise sample, where pandas yields NaN). -/
def qmean (xs : List ℚ) : ℚ := xs.sum / xs.length

/-- Centred cross-product sum of a pairwise sample. -/
def sXY (ps : List (ℚ × ℚ)) : ℚ :=
  ((ps.map (fun p => (p.1 - qmean (ps.map Prod.fst)) * (p.2 - qmean (ps.map Prod.snd))))).sum

/-- Centred square sum of the first coordinates. -/
def sXX (ps : List (ℚ × ℚ)) : ℚ :=
  ((ps.map (fun p => (p.1 - qmean (ps.map Prod.fst)) ^ 2))).sum

/-- Centred square sum of the second coordinates. -/
def sYY (ps : List (ℚ × ℚ)) : ℚ :=
  ((ps.map (fun p => (p.2 - qmean (ps.map Prod.snd)) ^ 2))).sum

/-- One Pearson entry of `DataFrame.corr`, in exact real arithmetic (the
float rounding of pandas is absorbed by the 2-decimal display rounding).
Division by a zero denominator stands for the NaN pandas produces. -/
noncomputable def corrEntry (ps : List (ℚ × ℚ)) : ℝ :=
  ((sXY ps : ℚ) : ℝ) / Real.sqrt (((sXX ps : ℚ) : ℝ) * ((sYY ps : ℚ) : ℝ))

/-- `.round(2)` on one matrix entry. -/
noncomputable def round2 (x : ℝ) : ℝ := ((round (x * 100) : ℤ) : ℝ) / 100

/-- Entry `(i, j)` of the rounded correlation matrix over the kept
columns. -/
noncomputable def corrM (T : Table) (cs : List String) (i j : ℕ) : ℝ :=
  round2 (corrEntry (pairColumn T (cs.getD i "") (cs.getD j "")))

/-!
State-passing forms of the aggregation functions.  Every pandas call the
source makes (`pd.to_numeric`, `Series.sum`, `Series.mean`,
`DataFrame.groupby(...).sum()`, `Series.sort_values`) returns a fresh
object and leaves its input frame untouched — none is called with
`inplace=True` and no statement of the source assigns into `df`.  Each
primitive therefore threads the table through unchanged, and the KPI
bodies below are the same call sequences as the source, with the frame
made an explicit piece of state so that "the input table is not mutated"
is a statable property rather than a convention.
-/

/-- `pd.to_numeric(df[c], errors="coerce")`: a fresh series, frame
untouched. -/
def pd_to_numeric_col (T : Table) (c : String) : List (Option ℚ) × Table :=
  (T.rows.map (fun r => toNum (getCell r c)), T)

/-- `Series.sum()` on a coerced series: a scalar, frame untouched. -/
def ser_sum_opt (s : List (Option ℚ)) (T : Table) : ℚ × Table :=
  ((s.filterMap id).sum, T)

/-- `Series.mean()` on a coerced series: a scalar or NaN, frame
untouched. -/
def ser_mean_opt (s : List (Option ℚ)) (T : Table) : Option ℚ × Table :=
  let xs := s.filterMap id
  ((if xs.length = 0 then none else some (xs.sum / xs.length)), T)

/-- `df.groupby(key, dropna=False)[mcol].sum()`: a fresh grouped series,
frame untouched. -/
def pd_groupby_sum (T : Table) (key mcol : String) : Except String (List (Cell × ℚ)) × Table :=
  (sumGroups T key mcol, T)

/-- `Series.sort_values(ascending=False)`: a fresh sorted series, frame
untouched. -/
def pd_sort_desc (g : List (Cell × ℚ)) (T : Table) : List (Cell × ℚ) × Table :=
  (sortDesc g, T)

/-- `kpi_total_sales` with the frame threaded explicitly. -/
def kpi_total_sales_st (T : Table) : Except String ℚ × Table :=
  match ensure_cols T ["Item_Outlet_Sales"] with
  | Except.error e => (Except.error e, T)
  | Except.ok _ =>
    let p1 := pd_to_numeric_col T "Item_Outlet_Sales"
    let p2 := ser_sum_opt p1.1 p1.2
    (Except.ok p2.1, p2.2)

/-- `kpi_avg_sales_per_item` with the frame threaded explicitly. -/
def kpi_avg_sales_per_item_st (T : Table) : Except String (Option ℚ) × Table :=
  match ensure_cols T ["Item_Outlet_Sales"] with
  | Except.error e => (Except.error e, T)
  | Except.ok _ =>
    let p1 := pd_to_numeric_col T "Item_Outlet_Sales"
    let p2 := ser_mean_opt p1.1 p1.2
    (Except.ok p2.1, p2.2)

/-- The shared groupby-sort-head pipeline with the frame threaded
explicitly. -/
def topGroupBy_st (T : Table) (col : String) : Except String (Option Cell × ℚ) × Table :=
  match pd_groupby_sum T col "Item_Outlet_Sales" with
  | (Except.error e, T1) => (Except.error e, T1)
  | (Except.ok g, T1) =>
    let p := pd_sort_desc g T1
    match p.1 with
    | [] => (Except.ok (none, 0), p.2)
    | x :: _ => (Except.ok (some x.1, x.2), p.2)

/-- `kpi_highest_selling_category` with the frame threaded explicitly. -/
def kpi_highest_selling_category_st (T : Table) (cat_col : String) :
    Except String (Option Cell × ℚ) × Table :=
  match ensure_cols T ["Item_Outlet_Sales", cat_col] with
  | Except.error e => (Except.error e, T)
  | Except.ok _ => topGroupBy_st T cat_col

/-- `kpi_best_outlet` with the frame threaded explicitly. -/
def kpi_best_outlet_st (T : Table) : Except String (Option Cell × ℚ) × Table :=
  match ensure_cols T ["Item_Outlet_Sales", outletCol T] with
  | Except.error e => (Except.error e, T)
  | Except.ok _ => topGroupBy_st T (outletCol T)

/-- `_bar_series` with the frame threaded explicitly. -/
def bar_series_st (T : Table) (group_col : String) (top_n : Option Int) :
    Except String (List (Cell × ℚ)) × Table :=
  match ensure_cols T ["Item_Outlet_Sales", group_col] with
  | Except.error e => (Except.error e, T)
  | Except.ok _ =>
    match pd_groupby_sum T group_col "Item_Outlet_Sales" with
    | (Except.error e, T1) => (Except.error e, T1)
    | (Except.ok g, T1) =>
      let p := pd_sort_desc g T1
      match top_n with
      | some n => if n = 0 then (Except.ok p.1, p.2) else (Except.ok (pdHead n p.1), p.2)
      | none => (Except.ok p.1, p.2)

/-! Basic facts about the embedded pandas primitives. -/

theorem list_contains_iff {l : List String} {c : String} : l.contains c = true ↔ c ∈ l := by
  simp

theorem ensure_cols_ok_iff {T : Table} {cs : List String} :
    ensure_cols T cs = Except.ok () ↔ ∀ c ∈ cs, c ∈ T.cols := by
  unfold ensure_cols
  split
  · rename_i h
    simp only [List.all_eq_true, list_contains_iff] at h
    exact ⟨fun _ => h, fun _ => rfl⟩
  · rename_i h
    simp only [List.all_eq_true, list_contains_iff] at h
    exact ⟨(fun hc => by cases hc), fun hall => absurd hall h⟩

theorem ensure_cols_error_iff {T : Table} {cs : List String} :
    ensure_cols T cs = Except.error schemaErr ↔ ¬ ∀ c ∈ cs, c ∈ T.cols := by
  unfold ensure_cols
  split
  · rename_i h
    simp only [List.all_eq_true, list_contains_iff] at h
    exact ⟨(fun hc => by cases hc), fun hn => absurd h hn⟩
  · rename_i h
    simp only [List.all_eq_true, list_contains_iff] at h
    exact ⟨fun _ => h, fun _ => rfl⟩

theorem sumCells_ok_of_good {cs : List Cell} (h : ∀ c ∈ cs, isBadNum c = false) :
    sumCells cs = Except.ok ((cs.filterMap toNum).sum) := by
  induction cs with
  | nil => rfl
  | cons c cs ih =>
    have hc := h c (List.mem_cons_self c cs)
    have ih' := ih (fun d hd => h d (List.mem_cons_of_mem c hd))
    cases c with
    | num q => simp [sumCells, ih', toNum, List.filterMap_cons, Except.map]
    | missing => simp [sumCells, ih', toNum, List.filterMap_cons]
    | str s => simp [isBadNum] at hc
    | date y m d => simp [isBadNum] at hc

theorem good_of_sumCells_ok {cs : List Cell} {q : ℚ} (h : sumCells cs = Except.ok q) :
    ∀ c ∈ cs, isBadNum c = false := by
  induction cs generalizing q with
  | nil => intro c hc; cases hc
  | cons c cs ih =>
    intro d hd
    cases c with
    | num x =>
      simp only [sumCells] at h
      cases hs : sumCells cs with
      | error e => rw [hs] at h; cases h
      | ok s =>
        rcases List.mem_cons.mp hd with h1 | h1
        · subst h1; rfl
        · exact ih hs d h1
    | missing =>
      simp only [sumCells] at h
      rcases List.mem_cons.mp hd with h1 | h1
      · subst h1; rfl
      · exact ih h d h1
    | str s => cases h
    | date y m d2 => cases h

theorem sumCells_ok_val {cs : List Cell} {q : ℚ} (h : sumCells cs = Except.ok q) :
    q = (cs.filterMap toNum).sum := by
  have := sumCells_ok_of_good (good_of_sumCells_ok h)
  rw [h] at this
  exact (Except.ok.injEq _ _).mp this

theorem sumCells_error_msg {cs : List Cell} {e : String} (h : sumCells cs = Except.error e) :
    e = typeErr := by
  induction cs with
  | nil => cases h
  | cons c cs ih =>
    cases c with
    | num x =>
      simp only [sumCells] at h
      cases hs : sumCells cs with
      | error f => rw [hs] at h; cases h; exact ih hs
      | ok s => rw [hs] at h; cases h
    | missing => exact ih h
    | str s => cases h; rfl
    | date y m d => cases h; rfl

/-- A sum over option-valued entries, with the `none`s dropped, equals the
sum of the entries read with default 0. -/
theorem sum_filterMap_getD {α : Type _} (g : α → Option ℚ) (l : List α) :
    (l.filterMap g).sum = (l.map (fun a => (g a).getD 0)).sum := by
  induction l with
  | nil => rfl
  | cons a l ih =>
    cases hg : g a with
    | none => simp [List.filterMap_cons, hg, ih]
    | some q => simp [List.filterMap_cons, hg, ih]

/-! The insertion sort used to model `groupby(sort=True)` and
`sort_values`. -/

theorem insertLe_perm {α : Type _} (le : α → α → Bool) (a : α) (l : List α) :
    List.Perm (insertLe le a l) (a :: l) := by
  induction l with
  | nil => rfl
  | cons b l ih =>
    unfold insertLe
    split
    · rfl
    · exact (ih.cons b).trans (List.Perm.swap a b l)

theorem sortLe_perm {α : Type _} (le : α → α → Bool) (l : List α) :
    List.Perm (sortLe le l) l := by
  induction l with
  | nil => rfl
  | cons a l ih =>
    exact (insertLe_perm le a (sortLe le l)).trans (ih.cons a)

theorem mem_sortLe {α : Type _} {le : α → α → Bool} {l : List α} {x : α} :
    x ∈ sortLe le l ↔ x ∈ l :=
  (sortLe_perm le l).mem_iff

/-- Inserting an element that relates suitably to everything in a pairwise
list keeps the list pairwise; `comp` is the invariant, `le` decides where
the insertion stops. -/
theorem insertLe_pairwise {α : Type _} {le : α → α → Bool} {comp : α → α → Prop}
    {m : List α} {a : α}
    (hm : m.Pairwise comp)
    (hfwd : ∀ x ∈ m, le a x = true → comp a x)
    (hbwd : ∀ x ∈ m, le a x = false → comp x a)
    (hdesc : ∀ x ∈ m, ∀ y ∈ m, comp x y → le a x = true → le a y = true) :
    (insertLe le a m).Pairwise comp := by
  induction m with
  | nil => exact List.pairwise_singleton comp a
  | cons b l ih =>
    simp only [insertLe]
    split
    · rename_i hab
      refine List.Pairwise.cons ?_ hm
      intro x hx
      rcases List.mem_cons.mp hx with h1 | h1
      · rw [h1]; exact hfwd b (List.mem_cons_self b l) hab
      · rcases List.pairwise_cons.mp hm with ⟨hb, _⟩
        exact hfwd x (List.mem_cons_of_mem b h1)
          (hdesc b (List.mem_cons_self b l) x (List.mem_cons_of_mem b h1) (hb x h1) hab)
    · rename_i hab
      rcases List.pairwise_cons.mp hm with ⟨hb, hl⟩
      refine List.Pairwise.cons ?_ ?_
      · intro x hx
        rcases List.mem_cons.mp ((insertLe_perm le a l).mem_iff.mp hx) with h1 | h1
        · rw [h1]; exact hbwd b (List.mem_cons_self b l) (by simpa using hab)
        · exact hb x h1
      · exact ih hl
          (fun x hx hle => hfwd x (List.mem_cons_of_mem b hx) hle)
          (fun x hx hle => hbwd x (List.mem_cons_of_mem b hx) hle)
          (fun x hx y hy => hdesc x (List.mem_cons_of_mem b hx) y (List.mem_cons_of_mem b hy))

/-- Sorting by a total transitive boolean relation yields a pairwise
ordered list. -/
theorem sortLe_pairwise {α : Type _} {le : α → α → Bool}
    (htot : ∀ a b, le a b = true ∨ le b a = true)
    (htr : ∀ a b c, le a b = true → le b c = true → le a c = true)
    (l : List α) : (sortLe le l).Pairwise (fun x y => le x y = true) := by
  induction l with
  | nil => exact List.Pairwise.nil
  | cons a l ih =>
    refine insertLe_pairwise ih ?_ ?_ ?_
    · intro x _ h; exact h
    · intro x _ h
      rcases htot a x with h1 | h1
      · rw [h] at h1; cases h1
      · exact h1
    · intro x _ y _ hxy hax; exact htr a x y hax hxy

theorem dateLe_total (a b : Int × Nat × Nat) : dateLe a b = true ∨ dateLe b a = true := by
  simp only [dateLe, Bool.or_eq_true, Bool.and_eq_true, decide_eq_true_eq]
  omega

theorem dateLe_trans {a b c : Int × Nat × Nat} (h1 : dateLe a b = true) (h2 : dateLe b c = true) :
    dateLe a c = true := by
  simp only [dateLe, Bool.or_eq_true, Bool.and_eq_true, decide_eq_true_eq] at h1 h2 ⊢
  omega

theorem cellLe_total (a b : Cell) : cellLe a b = true ∨ cellLe b a = true := by
  cases a <;> cases b <;> simp [cellLe, cellRank] <;>
    first
      | exact le_total _ _
      | exact dateLe_total _ _

theorem cellLe_trans {a b c : Cell} (h1 : cellLe a b = true) (h2 : cellLe b c = true) :
    cellLe a c = true := by
  cases a <;> cases b <;> cases c <;> simp_all [cellLe, cellRank] <;>
    first
      | exact le_trans h1 h2
      | exact dateLe_trans h1 h2

theorem groupKeys_nodup (T : Table) (key : String) : (groupKeys T key).Nodup :=
  ((sortLe_perm cellLe _).nodup_iff).mpr (List.nodup_dedup _)

theorem mem_groupKeys_of_row {T : Table} {key : String} {r : Row} (h : r ∈ T.rows) :
    getCell r key ∈ groupKeys T key := by
  unfold groupKeys
  rw [mem_sortLe, List.mem_dedup]
  exact List.mem_map_of_mem _ h

theorem exists_row_of_mem_groupKeys {T : Table} {key : String} {k : Cell}
    (h : k ∈ groupKeys T key) : ∃ r ∈ T.rows, getCell r key = k := by
  unfold groupKeys at h
  rw [mem_sortLe, List.mem_dedup] at h
  rcases List.mem_map.mp h with ⟨r, hr, he⟩
  exact ⟨r, hr, he⟩

/-- The groupby key list is strictly ascending: ordered by `cellLe` and
duplicate free. -/
theorem groupKeys_pairwise (T : Table) (key : String) :
    (groupKeys T key).Pairwise (fun a b => cellLe a b = true ∧ a ≠ b) := by
  have hs := sortLe_pairwise cellLe_total (fun a b c => cellLe_trans)
    ((T.rows.map (fun r => getCell r key)).dedup)
  exact hs.and (groupKeys_nodup T key)

theorem sumGroupsAux_ok_keys {T : Table} {key mcol : String} :
    ∀ {ks : List Cell} {gs : List (Cell × ℚ)},
      sumGroupsAux T key mcol ks = Except.ok gs → gs.map Prod.fst = ks := by
  intro ks
  induction ks with
  | nil => intro gs h; cases h; rfl
  | cons k ks ih =>
    intro gs h
    simp only [sumGroupsAux] at h
    cases hs : sumCells ((groupRows T key k).map (fun r => getCell r mcol)) with
    | error e => rw [hs] at h; cases h
    | ok s =>
      rw [hs] at h
      cases hr : sumGroupsAux T key mcol ks with
      | error e => rw [hr] at h; cases h
      | ok rest => rw [hr] at h; cases h; simp [ih hr]

theorem sumGroupsAux_ok_mem {T : Table} {key mcol : String} :
    ∀ {ks : List Cell} {gs : List (Cell × ℚ)},
      sumGroupsAux T key mcol ks = Except.ok gs →
      ∀ p ∈ gs, sumCells ((groupRows T key p.1).map (fun r => getCell r mcol)) = Except.ok p.2 := by
  intro ks
  induction ks with
  | nil => intro gs h; cases h; intro p hp; cases hp
  | cons k ks ih =>
    intro gs h
    simp only [sumGroupsAux] at h
    cases hs : sumCells ((groupRows T key k).map (fun r => getCell r mcol)) with
    | error e => rw [hs] at h; cases h
    | ok s =>
      rw [hs] at h
      cases hr : sumGroupsAux T key mcol ks with
      | error e => rw [hr] at h; cases h
      | ok rest =>
        rw [hr] at h; cases h
        intro p hp
        rcases List.mem_cons.mp hp with h1 | h1
        · rw [h1]; exact hs
        · exact ih hr p h1

theorem sumGroupsAux_error_msg {T : Table} {key mcol : String} :
    ∀ {ks : List Cell} {e : String},
      sumGroupsAux T key mcol ks = Except.error e → e = typeErr := by
  intro ks
  induction ks with
  | nil => intro e h; cases h
  | cons k ks ih =>
    intro e h
    simp only [sumGroupsAux] at h
    cases hs : sumCells ((groupRows T key k).map (fun r => getCell r mcol)) with
    | error f => rw [hs] at h; cases h; exact sumCells_error_msg hs
    | ok s =>
      rw [hs] at h
      cases hr : sumGroupsAux T key mcol ks with
      | error f => rw [hr] at h; cases h; exact ih hr
      | ok rest => rw [hr] at h; cases h

/-- Splitting a sum over a list by a boolean predicate. -/
theorem sum_map_filter_split {α : Type _} (p : α → Bool) (f : α → ℚ) (l : List α) :
    ((l.filter p).map f).sum + ((l.filter (fun a => ! p a)).map f).sum = (l.map f).sum := by
  induction l with
  | nil => simp
  | cons a l ih =>
    by_cases hp : p a
    · rw [List.filter_cons_of_pos hp, List.filter_cons_of_neg (by simp [hp]),
        List.map_cons, List.sum_cons, List.map_cons, List.sum_cons, add_assoc, ih]
    · rw [List.filter_cons_of_neg (by simpa using hp),
        List.filter_cons_of_pos (by simp [hp]),
        List.map_cons, List.sum_cons, List.map_cons, List.sum_cons, add_left_comm, ih]

/-- Grouping partitions a sum: summing the per-group sums over a
duplicate-free key list covering every row recovers the global sum. -/
theorem sum_partition (key : String) (f : Row → ℚ) :
    ∀ (ks : List Cell), ks.Nodup → ∀ (rows : List Row),
      (∀ r ∈ rows, getCell r key ∈ ks) →
      (ks.map (fun k =>
        (((rows.filter (fun r => decide (getCell r key = k))).map f)).sum)).sum
        = (rows.map f).sum := by
  intro ks
  induction ks with
  | nil =>
    intro _ rows hall
    cases rows with
    | nil => simp
    | cons r rs => exact absurd (hall r (List.mem_cons_self r rs)) (List.not_mem_nil _)
  | cons k ks ih =>
    intro hnd rows hall
    rcases List.pairwise_cons.mp hnd with ⟨hk, hnd'⟩
    have hall' : ∀ r ∈ rows.filter (fun r => ! decide (getCell r key = k)),
        getCell r key ∈ ks := by
      intro r hr
      rcases List.mem_filter.mp hr with ⟨hrr, hne⟩
      rcases List.mem_cons.mp (hall r hrr) with h1 | h1
      · exfalso
        simp only [Bool.not_eq_eq_eq_not, Bool.not_true, decide_eq_false_iff_not] at hne
        exact hne h1
      · exact h1
    have ihr := ih hnd' _ hall'
    have hterm : (ks.map (fun k' =>
          ((rows.filter (fun r => decide (getCell r key = k'))).map f).sum))
        = (ks.map (fun k' =>
          (((rows.filter (fun r => ! decide (getCell r key = k))).filter
              (fun r => decide (getCell r key = k'))).map f).sum)) := by
      apply List.map_congr_left
      intro k' hk'
      have : (rows.filter (fun r => ! decide (getCell r key = k))).filter
          (fun r => decide (getCell r key = k'))
          = rows.filter (fun r => decide (getCell r key = k')) := by
        rw [List.filter_filter]
        apply List.filter_congr
        intro r _
        by_cases he : getCell r key = k'
        · have hne : ¬ k' = k := fun hkk => hk k' hk' hkk.symm
          simp [he, hne]
        · simp [he]
      rw [this]
    simp only [List.map_cons, List.sum_cons]
    rw [hterm, ihr, sum_map_filter_split (fun r => decide (getCell r key = k)) f rows]

/-! Properties of the descending sort used by `sort_values`. -/

/-- Invariant of a ranked output list: sums descending, and groups with
equal sums in ascending key order. -/
def compDesc (p q : Cell × ℚ) : Prop :=
  q.2 ≤ p.2 ∧ (p.2 = q.2 → cellLe p.1 q.1 = true)

theorem sortDesc_perm (g : List (Cell × ℚ)) : List.Perm (sortDesc g) g :=
  sortLe_perm geSnd g

theorem sortDesc_pairwise_geSnd (g : List (Cell × ℚ)) :
    (sortDesc g).Pairwise (fun x y => geSnd x y = true) := by
  apply sortLe_pairwise
  · intro a b
    unfold geSnd
    rcases le_total b.2 a.2 with h | h
    · exact Or.inl (decide_eq_true h)
    · exact Or.inr (decide_eq_true h)
  · intro a b c h1 h2
    simp only [geSnd, decide_eq_true_eq] at h1 h2 ⊢
    exact le_trans h2 h1

/-- Stability: sorting a strictly key-ascending list of `(key, sum)` pairs
descending by sum leaves equal-sum entries in ascending key order. -/
theorem sortDesc_pairwise_stable {g : List (Cell × ℚ)}
    (hg : g.Pairwise (fun p q => cellLe p.1 q.1 = true ∧ p.1 ≠ q.1)) :
    (sortDesc g).Pairwise compDesc := by
  induction g with
  | nil => exact List.Pairwise.nil
  | cons a l ih =>
    rcases List.pairwise_cons.mp hg with ⟨ha, hl⟩
    have step : (insertLe geSnd a (sortLe geSnd l)).Pairwise compDesc := by
      apply insertLe_pairwise (ih hl)
      · intro x hx hax
        refine ⟨by simpa [geSnd] using hax, ?_⟩
        intro _
        exact (ha x (mem_sortLe.mp hx)).1
      · intro x hx hax
        have hlt : ¬ x.2 ≤ a.2 := by simpa [geSnd] using hax
        exact ⟨le_of_not_le hlt, fun heq => absurd (le_of_eq heq) hlt⟩
      · intro x hx y hy hxy hax
        simp only [geSnd, decide_eq_true_eq] at hxy hax ⊢
        exact le_trans hxy.1 hax
    exact step

/-- The head of a descending-sorted nonempty list bounds every entry. -/
theorem head_bounds_of_pairwise {x : Cell × ℚ} {rest : List (Cell × ℚ)}
    (h : (x :: rest).Pairwise (fun p q => geSnd p q = true)) :
    ∀ p ∈ x :: rest, p.2 ≤ x.2 := by
  intro p hp
  rcases List.mem_cons.mp hp with h1 | h1
  · rw [h1]
  · rcases List.pairwise_cons.mp h with ⟨hx, _⟩
    simpa [geSnd] using hx p h1

/-! Characterisations of the KPI entry points. -/

theorem kpi_total_sales_ok {T : Table} (h : "Item_Outlet_Sales" ∈ T.cols) :
    kpi_total_sales T = Except.ok ((numericCells T "Item_Outlet_Sales").sum) := by
  unfold kpi_total_sales
  have he : ensure_cols T ["Item_Outlet_Sales"] = Except.ok () :=
    ensure_cols_ok_iff.mpr (by
      intro c hc
      rw [List.mem_singleton.mp hc]
      exact h)
  rw [he]

theorem kpi_total_sales_error {T : Table} (h : "Item_Outlet_Sales" ∉ T.cols) :
    kpi_total_sales T = Except.error schemaErr := by
  unfold kpi_total_sales
  have he : ensure_cols T ["Item_Outlet_Sales"] = Except.error schemaErr :=
    ensure_cols_error_iff.mpr (fun hall => h (hall _ (List.mem_singleton_self _)))
  rw [he]

/-! Sample tables used by the witnesses. -/

/-- Three category rows with numeric sales: the spec's concrete
scenario. -/
def sampleCat : Table :=
  ⟨["Item_Type", "Item_Outlet_Sales"],
   [[("Item_Type", Cell.str "CatA"), ("Item_Outlet_Sales", Cell.num 100)],
    [("Item_Type", Cell.str "CatB"), ("Item_Outlet_Sales", Cell.num 50)],
    [("Item_Type", Cell.str "CatA"), ("Item_Outlet_Sales", Cell.num 25)]]⟩

/-- As `sampleCat` but with one non-numeric sales entry. -/
def sampleBad : Table :=
  ⟨["Item_Type", "Item_Outlet_Sales"],
   [[("Item_Type", Cell.str "CatA"), ("Item_Outlet_Sales", Cell.num 100)],
    [("Item_Type", Cell.str "CatB"), ("Item_Outlet_Sales", Cell.str "oops")],
    [("Item_Type", Cell.str "CatA"), ("Item_Outlet_Sales", Cell.num 25)]]⟩

/-- A zero-row table that still declares the required columns. -/
def emptyTbl : Table := ⟨["Item_Outlet_Sales", "Item_Type"], []⟩

/-! The claims. -/

/-- C1: `kpi_total_sales` raises a schema error exactly when
`Item_Outlet_Sales` is absent; otherwise it returns the sum of the
numeric-coercible entries of that column, each non-numeric entry excluded
from the sum rather than erroring; and every row — whatever its sales
cell — belongs to the group of its key when the table is grouped by any
present column. -/
theorem claim1_total_schema_sum_membership (T : Table) :
    ((∃ e, kpi_total_sales T = Except.error e) ↔ "Item_Outlet_Sales" ∉ T.cols)
    ∧ ("Item_Outlet_Sales" ∈ T.cols →
        kpi_total_sales T =
          Except.ok ((T.rows.filterMap (fun r => toNum (getCell r "Item_Outlet_Sales"))).sum))
    ∧ (∀ key, key ∈ T.cols → ∀ r ∈ T.rows, r ∈ groupRows T key (getCell r key)) := by
  refine ⟨⟨?_, ?_⟩, ?_, ?_⟩
  · rintro ⟨e, he⟩ hmem
    rw [kpi_total_sales_ok hmem] at he
    cases he
  · intro hmem
    exact ⟨schemaErr, kpi_total_sales_error hmem⟩
  · intro h
    exact kpi_total_sales_ok h
  · intro key _ r hr
    unfold groupRows
    rw [List.mem_filter]
    exact ⟨hr, by simp⟩

/-- C1 witness: at a table with one non-numeric sales cell, the total is
the sum of the numeric entries, and the non-numeric row still lies in its
category's group. -/
theorem claim1_witness :
    kpi_total_sales sampleBad =
      Except.ok ((sampleBad.rows.filterMap (fun r => toNum (getCell r "Item_Outlet_Sales"))).sum)
    ∧ [("Item_Type", Cell.str "CatB"), ("Item_Outlet_Sales", Cell.str "oops")] ∈
        groupRows sampleBad "Item_Type"
          (getCell [("Item_Type", Cell.str "CatB"), ("Item_Outlet_Sales", Cell.str "oops")]
            "Item_Type") := by
  constructor
  · exact (claim1_total_schema_sum_membership sampleBad).2.1 (by decide)
  · exact (claim1_total_schema_sum_membership sampleBad).2.2 "Item_Type" (by decide) _ (by decide)

/-- C6: a zero-row table that declares the required columns yields total
0, the NaN sentinel for the average, and the `(None, 0.0)` sentinel for
the top category, with no error raised. -/
theorem claim6_empty_table_sentinels (T : Table) (cat : String)
    (hrows : T.rows = [])
    (hsales : "Item_Outlet_Sales" ∈ T.cols) (hcat : cat ∈ T.cols) :
    kpi_total_sales T = Except.ok 0
    ∧ kpi_avg_sales_per_item T = Except.ok none
    ∧ kpi_highest_selling_category T cat = Except.ok (none, 0) := by
  have hens1 : ensure_cols T ["Item_Outlet_Sales"] = Except.ok () :=
    ensure_cols_ok_iff.mpr (by
      intro c hc
      rw [List.mem_singleton.mp hc]
      exact hsales)
  have hens2 : ensure_cols T ["Item_Outlet_Sales", cat] = Except.ok () :=
    ensure_cols_ok_iff.mpr (by
      intro c hc
      rcases List.mem_cons.mp hc with h1 | h1
      · rw [h1]; exact hsales
      · rw [List.mem_singleton.mp h1]; exact hcat)
  have hnum : numericCells T "Item_Outlet_Sales" = [] := by
    unfold numericCells
    rw [hrows]
    rfl
  have hk : groupKeys T cat = [] := by
    unfold groupKeys
    rw [hrows]
    rfl
  refine ⟨?_, ?_, ?_⟩
  · unfold kpi_total_sales
    rw [hens1, hnum]
    rfl
  · simp [kpi_avg_sales_per_item, hens1, hnum]
  · simp [kpi_highest_selling_category, hens2, topGroupBy, sumGroups, hk, sumGroupsAux,
      sortDesc, sortLe]

/-- C6 witness at a concrete empty table. -/
theorem claim6_witness :
    kpi_total_sales emptyTbl = Except.ok 0
    ∧ kpi_avg_sales_per_item emptyTbl = Except.ok none
    ∧ kpi_highest_selling_category emptyTbl "Item_Type" = Except.ok (none, 0) :=
  claim6_empty_table_sentinels emptyTbl "Item_Type" rfl (by decide) (by decide)

/-! State-passing correspondence lemmas. -/

theorem topGroupBy_st_spec (T : Table) (col : String) :
    topGroupBy_st T col = (topGroupBy T col, T) := by
  unfold topGroupBy_st topGroupBy pd_groupby_sum pd_sort_desc
  cases sumGroups T col "Item_Outlet_Sales" with
  | error e => rfl
  | ok g => cases hsd : sortDesc g <;> simp [hsd]

theorem filterMap_id_map {T : Table} (c : String) :
    ((T.rows.map (fun r => toNum (getCell r c))).filterMap id) = numericCells T c := by
  rw [List.filterMap_map]
  rfl

theorem kpi_total_sales_st_spec (T : Table) :
    kpi_total_sales_st T = (kpi_total_sales T, T) := by
  unfold kpi_total_sales_st kpi_total_sales
  cases ensure_cols T ["Item_Outlet_Sales"] with
  | error e => rfl
  | ok u =>
    simp only [pd_to_numeric_col, ser_sum_opt, filterMap_id_map]

theorem kpi_avg_st_spec (T : Table) :
    kpi_avg_sales_per_item_st T = (kpi_avg_sales_per_item T, T) := by
  unfold kpi_avg_sales_per_item_st kpi_avg_sales_per_item
  cases ensure_cols T ["Item_Outlet_Sales"] with
  | error e => rfl
  | ok u =>
    simp only [pd_to_numeric_col, ser_mean_opt, filterMap_id_map]

theorem kpi_highest_st_spec (T : Table) (cat : String) :
    kpi_highest_selling_category_st T cat = (kpi_highest_selling_category T cat, T) := by
  unfold kpi_highest_selling_category_st kpi_highest_selling_category
  cases ensure_cols T ["Item_Outlet_Sales", cat] with
  | error e => rfl
  | ok u => exact topGroupBy_st_spec T cat

theorem kpi_best_outlet_st_spec (T : Table) :
    kpi_best_outlet_st T = (kpi_best_outlet T, T) := by
  unfold kpi_best_outlet_st kpi_best_outlet
  cases ensure_cols T ["Item_Outlet_Sales", outletCol T] with
  | error e => rfl
  | ok u => exact topGroupBy_st_spec T (outletCol T)

theorem bar_series_st_spec (T : Table) (col : String) (n : Option Int) :
    bar_series_st T col n = (bar_series T col n, T) := by
  unfold bar_series_st bar_series pd_groupby_sum pd_sort_desc
  cases ensure_cols T ["Item_Outlet_Sales", col] with
  | error e => rfl
  | ok u =>
    cases sumGroups T col "Item_Outlet_Sales" with
    | error e => rfl
    | ok g =>
      cases n with
      | none => rfl
      | some m =>
        by_cases hm : m = 0 <;> simp [hm]

/-- C9: the aggregation functions are pure.  In state-passing form each
one hands back the input table unchanged and computes the same value as
the plain function of the table, so re-running `kpi_total_sales` on the
table left behind by a first run returns the identical result. -/
theorem claim9_aggregation_purity (T : Table) :
    (kpi_total_sales_st T).2 = T
    ∧ (kpi_total_sales_st T).1 = kpi_total_sales T
    ∧ kpi_total_sales_st ((kpi_total_sales_st T).2) = kpi_total_sales_st T
    ∧ (kpi_avg_sales_per_item_st T).2 = T
    ∧ (kpi_avg_sales_per_item_st T).1 = kpi_avg_sales_per_item T
    ∧ (∀ cat, (kpi_highest_selling_category_st T cat).2 = T
        ∧ (kpi_highest_selling_category_st T cat).1 = kpi_highest_selling_category T cat)
    ∧ (kpi_best_outlet_st T).2 = T
    ∧ (kpi_best_outlet_st T).1 = kpi_best_outlet T
    ∧ (∀ col n, (bar_series_st T col n).2 = T
        ∧ (bar_series_st T col n).1 = bar_series T col n) := by
  refine ⟨?_, ?_, ?_, ?_, ?_, ?_, ?_, ?_, ?_⟩
  · rw [kpi_total_sales_st_spec]
  · rw [kpi_total_sales_st_spec]
  · rw [kpi_total_sales_st_spec, kpi_total_sales_st_spec]
  · rw [kpi_avg_st_spec]
  · rw [kpi_avg_st_spec]
  · intro cat
    rw [kpi_highest_st_spec]
    exact ⟨rfl, rfl⟩
  · rw [kpi_best_outlet_st_spec]
  · rw [kpi_best_outlet_st_spec]
  · intro col n
    rw [bar_series_st_spec]
    exact ⟨rfl, rfl⟩

theorem typeErr_ne_schemaErr : typeErr ≠ schemaErr := by decide

/-- `topGroupBy` can fail only with the pandas TypeError, never with the
schema-error message. -/
theorem topGroupBy_ne_schemaErr (T : Table) (col : String) :
    topGroupBy T col ≠ Except.error schemaErr := by
  unfold topGroupBy
  cases hsg : sumGroups T col "Item_Outlet_Sales" with
  | error e =>
    intro h
    cases h
    exact typeErr_ne_schemaErr (sumGroupsAux_error_msg hsg).symm
  | ok g =>
    show (match sortDesc g with
      | [] => Except.ok (none, 0)
      | x :: _ => Except.ok (some x.1, x.2)) ≠ Except.error schemaErr
    cases sortDesc g with
    | nil => intro h; cases h
    | cons x l => intro h; cases h

/-- On a zero-row table `topGroupBy` returns the sentinel. -/
theorem topGroupBy_empty {T : Table} (h : T.rows = []) (col : String) :
    topGroupBy T col = Except.ok (none, 0) := by
  have hk : groupKeys T col = [] := by
    unfold groupKeys
    rw [h]
    rfl
  simp [topGroupBy, sumGroups, hk, sumGroupsAux, sortDesc, sortLe]

theorem outletCol_pos {T : Table} (h : "Outlet_Identifier" ∈ T.cols) :
    outletCol T = "Outlet_Identifier" := by
  unfold outletCol
  rw [if_pos (list_contains_iff.mpr h)]

theorem outletCol_neg {T : Table} (h : "Outlet_Identifier" ∉ T.cols) :
    outletCol T = "Outlet_Type" := by
  unfold outletCol
  rw [if_neg]
  intro hc
  exact h (list_contains_iff.mp hc)

theorem ensure_pair_ok {T : Table} {a b : String} (ha : a ∈ T.cols) (hb : b ∈ T.cols) :
    ensure_cols T [a, b] = Except.ok () :=
  ensure_cols_ok_iff.mpr (by
    intro c hc
    rcases List.mem_cons.mp hc with h1 | h1
    · rw [h1]; exact ha
    · rw [List.mem_singleton.mp h1]; exact hb)

/-- C10: `kpi_best_outlet` groups by `Outlet_Identifier` when present and
otherwise by `Outlet_Type`; its schema error occurs exactly when the
sales column is absent or both outlet columns are absent; and on a
zero-row table with the needed columns it returns the
`(None, 0.0)` sentinel. -/
theorem claim10_best_outlet (T : Table) :
    (kpi_best_outlet T = Except.error schemaErr ↔
      ("Item_Outlet_Sales" ∉ T.cols ∨
        ("Outlet_Identifier" ∉ T.cols ∧ "Outlet_Type" ∉ T.cols)))
    ∧ ("Outlet_Identifier" ∈ T.cols → "Item_Outlet_Sales" ∈ T.cols →
        kpi_best_outlet T = topGroupBy T "Outlet_Identifier")
    ∧ ("Outlet_Identifier" ∉ T.cols → "Outlet_Type" ∈ T.cols → "Item_Outlet_Sales" ∈ T.cols →
        kpi_best_outlet T = topGroupBy T "Outlet_Type")
    ∧ (T.rows = [] → "Item_Outlet_Sales" ∈ T.cols →
        ("Outlet_Identifier" ∈ T.cols ∨ "Outlet_Type" ∈ T.cols) →
        kpi_best_outlet T = Except.ok (none, 0)) := by
  have hko : "Item_Outlet_Sales" ∈ T.cols → outletCol T ∈ T.cols →
      kpi_best_outlet T = topGroupBy T (outletCol T) := by
    intro hs hoc
    unfold kpi_best_outlet
    rw [ensure_pair_ok hs hoc]
  have hkerr : ("Item_Outlet_Sales" ∉ T.cols ∨ outletCol T ∉ T.cols) →
      kpi_best_outlet T = Except.error schemaErr := by
    intro hcase
    unfold kpi_best_outlet
    have he : ensure_cols T ["Item_Outlet_Sales", outletCol T] = Except.error schemaErr := by
      apply ensure_cols_error_iff.mpr
      intro hall
      rcases hcase with h | h
      · exact h (hall _ (List.mem_cons_self _ _))
      · exact h (hall _ (List.mem_cons_of_mem _ (List.mem_singleton_self _)))
    rw [he]
  refine ⟨⟨?_, ?_⟩, ?_, ?_, ?_⟩
  · intro herr
    by_cases hs : "Item_Outlet_Sales" ∈ T.cols
    · by_cases hoid : "Outlet_Identifier" ∈ T.cols
      · exfalso
        have hk := hko hs (by rw [outletCol_pos hoid]; exact hoid)
        rw [hk] at herr
        exact topGroupBy_ne_schemaErr T _ herr
      · by_cases hot : "Outlet_Type" ∈ T.cols
        · exfalso
          have hk := hko hs (by rw [outletCol_neg hoid]; exact hot)
          rw [hk] at herr
          exact topGroupBy_ne_schemaErr T _ herr
        · exact Or.inr ⟨hoid, hot⟩
    · exact Or.inl hs
  · intro hcase
    apply hkerr
    rcases hcase with h | h
    · exact Or.inl h
    · right
      by_cases hoid : "Outlet_Identifier" ∈ T.cols
      · exact absurd hoid h.1
      · rw [outletCol_neg hoid]
        exact h.2
  · intro hoid hs
    rw [hko hs (by rw [outletCol_pos hoid]; exact hoid), outletCol_pos hoid]
  · intro hoid hot hs
    rw [hko hs (by rw [outletCol_neg hoid]; exact hot), outletCol_neg hoid]
  · intro hrows hs hout
    have hoc : outletCol T ∈ T.cols := by
      by_cases hoid : "Outlet_Identifier" ∈ T.cols
      · rw [outletCol_pos hoid]; exact hoid
      · rw [outletCol_neg hoid]
        rcases hout with h | h
        · exact absurd h hoid
        · exact h
    rw [hko hs hoc]
    exact topGroupBy_empty hrows _

/-- One-row table with both outlet columns. -/
def sampleOutlet : Table :=
  ⟨["Outlet_Identifier", "Outlet_Type", "Item_Outlet_Sales"],
   [[("Outlet_Identifier", Cell.num 1), ("Outlet_Type", Cell.str "Grocery"),
     ("Item_Outlet_Sales", Cell.num 7)]]⟩

/-- Empty table with `Outlet_Type` but no `Outlet_Identifier`. -/
def emptyOutletTbl : Table := ⟨["Item_Outlet_Sales", "Outlet_Type"], []⟩

/-- C10 witness: the identifier column wins when present; the empty-table
sentinel is returned when only `Outlet_Type` exists. -/
theorem claim10_witness :
    kpi_best_outlet sampleOutlet = topGroupBy sampleOutlet "Outlet_Identifier"
    ∧ kpi_best_outlet emptyOutletTbl = Except.ok (none, 0) :=
  ⟨(claim10_best_outlet sampleOutlet).2.1 (by decide) (by decide),
   (claim10_best_outlet emptyOutletTbl).2.2.2 rfl (by decide) (Or.inr (by decide))⟩

/-! Destructuring the bar-series pipeline. -/

theorem bar_series_none_ok {T : Table} {key : String} {gs : List (Cell × ℚ)}
    (h : bar_series T key none = Except.ok gs) :
    ∃ g0, sumGroups T key "Item_Outlet_Sales" = Except.ok g0 ∧ gs = sortDesc g0 ∧
      ensure_cols T ["Item_Outlet_Sales", key] = Except.ok () := by
  unfold bar_series at h
  cases he : ensure_cols T ["Item_Outlet_Sales", key] with
  | error e => rw [he] at h; cases h
  | ok u =>
    rw [he] at h
    cases hsg : sumGroups T key "Item_Outlet_Sales" with
    | error e => rw [hsg] at h; cases h
    | ok g0 =>
      rw [hsg] at h
      cases h
      cases u
      exact ⟨g0, rfl, rfl, rfl⟩

theorem bar_series_some_ok {T : Table} {key : String} {n : Int} {gs : List (Cell × ℚ)}
    (h : bar_series T key (some n) = Except.ok gs) :
    ∃ g0, sumGroups T key "Item_Outlet_Sales" = Except.ok g0 ∧
      gs = (if n = 0 then sortDesc g0 else pdHead n (sortDesc g0)) := by
  unfold bar_series at h
  cases he : ensure_cols T ["Item_Outlet_Sales", key] with
  | error e => rw [he] at h; cases h
  | ok u =>
    rw [he] at h
    cases hsg : sumGroups T key "Item_Outlet_Sales" with
    | error e => rw [hsg] at h; cases h
    | ok g0 =>
      rw [hsg] at h
      have h2 : (if n = 0 then Except.ok (sortDesc g0)
          else Except.ok (pdHead n (sortDesc g0)) : Except String (List (Cell × ℚ)))
          = Except.ok gs := h
      by_cases hn : n = 0
      · rw [if_pos hn] at h2
        cases h2
        exact ⟨g0, rfl, by rw [if_pos hn]⟩
      · rw [if_neg hn] at h2
        cases h2
        exact ⟨g0, rfl, by rw [if_neg hn]⟩

/-- Summing the per-group sums of a successful groupby recovers the sum
of the coerced sales over all rows. -/
theorem group_snd_sum {T : Table} {key : String} {g0 : List (Cell × ℚ)}
    (hsg : sumGroups T key "Item_Outlet_Sales" = Except.ok g0) :
    (g0.map Prod.snd).sum
      = (T.rows.map (fun r => (toNum (getCell r "Item_Outlet_Sales")).getD 0)).sum := by
  have hkeys := sumGroupsAux_ok_keys hsg
  have hmem := sumGroupsAux_ok_mem hsg
  have hmap : g0.map Prod.snd = g0.map (fun p =>
      ((groupRows T key p.1).map
        (fun r => (toNum (getCell r "Item_Outlet_Sales")).getD 0)).sum) := by
    apply List.map_congr_left
    intro p hp
    have hv := sumCells_ok_val (hmem p hp)
    rw [hv, List.filterMap_map, sum_filterMap_getD]
    rfl
  have hcomp : (g0.map (fun p =>
      ((groupRows T key p.1).map
        (fun r => (toNum (getCell r "Item_Outlet_Sales")).getD 0)).sum))
      = ((g0.map Prod.fst).map (fun k =>
      ((groupRows T key k).map
        (fun r => (toNum (getCell r "Item_Outlet_Sales")).getD 0)).sum)) := by
    rw [List.map_map]
    rfl
  rw [hmap, hcomp, hkeys]
  exact sum_partition key (fun r => (toNum (getCell r "Item_Outlet_Sales")).getD 0)
    (groupKeys T key) (groupKeys_nodup T key) T.rows (fun r hr => mem_groupKeys_of_row hr)

/-- C2: whenever both `kpi_total_sales` and the un-truncated `_bar_series`
succeed on a table, the total equals the sum of the per-group sums: the
grouping partitions the total with no loss and no double count. -/
theorem claim2_grouping_partitions_total (T : Table) (key : String)
    (gs : List (Cell × ℚ)) (t : ℚ)
    (hb : bar_series T key none = Except.ok gs)
    (ht : kpi_total_sales T = Except.ok t) :
    t = (gs.map Prod.snd).sum := by
  rcases bar_series_none_ok hb with ⟨g0, hsg, hgs, hens⟩
  have hsales : "Item_Outlet_Sales" ∈ T.cols :=
    (ensure_cols_ok_iff.mp hens) _ (List.mem_cons_self _ _)
  rw [kpi_total_sales_ok hsales] at ht
  have hperm : (gs.map Prod.snd).sum = (g0.map Prod.snd).sum := by
    rw [hgs]
    exact ((sortDesc_perm g0).map Prod.snd).sum_eq
  have ht' : t = (numericCells T "Item_Outlet_Sales").sum :=
    ((Except.ok.injEq _ _).mp ht).symm
  rw [ht', hperm, group_snd_sum hsg]
  unfold numericCells
  exact sum_filterMap_getD _ _

/-- C2 witness at the spec's concrete category table. -/
theorem claim2_witness :
    (175 : ℚ) = (([(Cell.str "CatA", (125 : ℚ)), (Cell.str "CatB", 50)]).map Prod.snd).sum :=
  claim2_grouping_partitions_total sampleCat "Item_Type"
    [(Cell.str "CatA", 125), (Cell.str "CatB", 50)] 175
    (by with_unfolding_all decide) (by with_unfolding_all decide)

/-- C3: on a non-empty table, whenever the un-truncated ranking
succeeds, `kpi_highest_selling_category` succeeds and returns exactly the
head of that ranking: its sum is the maximum per-group sum, and —
both computations being functions of the input — repeated calls on the
same input return the same winning group. -/
theorem claim3_top_group_max (T : Table) (cat : String)
    (hne : T.rows ≠ [])
    (gs : List (Cell × ℚ)) (hb : bar_series T cat none = Except.ok gs) :
    ∃ k s, kpi_highest_selling_category T cat = Except.ok (some k, s)
      ∧ gs.head? = some (k, s)
      ∧ (∀ p ∈ gs, p.2 ≤ s)
      ∧ kpi_highest_selling_category T cat = kpi_highest_selling_category T cat := by
  rcases bar_series_none_ok hb with ⟨g0, hsg, hgs, hens⟩
  have hkeys := sumGroupsAux_ok_keys hsg
  have hgk : groupKeys T cat ≠ [] := by
    cases hr : T.rows with
    | nil => exact absurd hr hne
    | cons r rs =>
      have hm : getCell r cat ∈ groupKeys T cat :=
        mem_groupKeys_of_row (by rw [hr]; exact List.mem_cons_self r rs)
      exact List.ne_nil_of_mem hm
  have hg0 : g0 ≠ [] := by
    intro h0
    rw [h0] at hkeys
    exact hgk hkeys.symm
  have hgs_ne : gs ≠ [] := by
    rw [hgs]
    intro h0
    have hl := (sortDesc_perm g0).length_eq
    rw [h0] at hl
    cases g0 with
    | nil => exact hg0 rfl
    | cons a l => simp at hl
  cases hgseq : gs with
  | nil => exact absurd hgseq hgs_ne
  | cons x rest =>
    have hsd : sortDesc g0 = x :: rest := by rw [← hgs, hgseq]
    refine ⟨x.1, x.2, ?_, rfl, ?_, rfl⟩
    · unfold kpi_highest_selling_category
      rw [hens]
      show topGroupBy T cat = Except.ok (some x.1, x.2)
      unfold topGroupBy
      rw [hsg]
      show (match sortDesc g0 with
        | [] => Except.ok (none, 0)
        | y :: _ => Except.ok (some y.1, y.2)) = Except.ok (some x.1, x.2)
      rw [hsd]
    · have hp := sortDesc_pairwise_geSnd g0
      rw [hsd] at hp
      exact head_bounds_of_pairwise hp

/-- C3 witness at the concrete category table. -/
theorem claim3_witness :
    ∃ k s, kpi_highest_selling_category sampleCat "Item_Type" = Except.ok (some k, s)
      ∧ ([(Cell.str "CatA", (125 : ℚ)), (Cell.str "CatB", 50)]).head? = some (k, s)
      ∧ (∀ p ∈ [(Cell.str "CatA", (125 : ℚ)), (Cell.str "CatB", 50)], p.2 ≤ s)
      ∧ kpi_highest_selling_category sampleCat "Item_Type"
          = kpi_highest_selling_category sampleCat "Item_Type" :=
  claim3_top_group_max sampleCat "Item_Type" (by decide)
    [(Cell.str "CatA", 125), (Cell.str "CatB", 50)] (by with_unfolding_all decide)

/-- Two rows with equal sales and numeric keys seen in the order 2, 1. -/
def tieTbl : Table :=
  ⟨["k", "Item_Outlet_Sales"],
   [[("k", Cell.num 2), ("Item_Outlet_Sales", Cell.num 10)],
    [("k", Cell.num 1), ("Item_Outlet_Sales", Cell.num 10)]]⟩

/-- C4 counterexample: with two equal group sums the ranked output lists
key 1 before key 2 — ascending key order — although first-seen-in-table
order is 2 before 1; and a limit of `0` (Python-falsy) is ignored instead
of truncating to zero entries. -/
theorem claim4_counterexample :
    (tieTbl.rows.map (fun r => getCell r "k")).dedup = [Cell.num 2, Cell.num 1]
    ∧ bar_series tieTbl "k" none = Except.ok [(Cell.num 1, 10), (Cell.num 2, 10)]
    ∧ bar_series tieTbl "k" none ≠ Except.ok [(Cell.num 2, 10), (Cell.num 1, 10)]
    ∧ bar_series tieTbl "k" (some 0) = Except.ok [(Cell.num 1, 10), (Cell.num 2, 10)] := by
  refine ⟨?_, ?_, ?_, ?_⟩ <;> with_unfolding_all decide

/-- C4 (amended): when the un-truncated `_bar_series` succeeds it
partitions the rows by the grouping key with the missing bucket included:
its keys are exactly the distinct key cells of the table, duplicate free,
each paired with the sum over its group; the output is sorted descending
by sum with ties in ascending key order (the order `groupby(sort=True)`
emits groups, not first-seen order); a positive limit `n` truncates to
the first `n` entries, while a limit of `0` is Python-falsy and ignored. -/
theorem claim4_ranked_groups (T : Table) (key : String)
    (gsAll : List (Cell × ℚ))
    (hall : bar_series T key none = Except.ok gsAll) :
    (∀ r ∈ T.rows, ∃ g ∈ gsAll, g.1 = getCell r key)
    ∧ (∀ g ∈ gsAll, (∃ r ∈ T.rows, getCell r key = g.1)
        ∧ sumCells ((groupRows T key g.1).map (fun r => getCell r "Item_Outlet_Sales"))
            = Except.ok g.2)
    ∧ (gsAll.map Prod.fst).Nodup
    ∧ gsAll.Pairwise compDesc
    ∧ (∀ n : Int, 0 < n →
        bar_series T key (some n) = Except.ok (gsAll.take n.toNat))
    ∧ bar_series T key (some 0) = Except.ok gsAll := by
  rcases bar_series_none_ok hall with ⟨g0, hsg, hgs, hens⟩
  have hkeys := sumGroupsAux_ok_keys hsg
  have hmem := sumGroupsAux_ok_mem hsg
  refine ⟨?_, ?_, ?_, ?_, ?_, ?_⟩
  · intro r hr
    have hm : getCell r key ∈ g0.map Prod.fst := by
      rw [hkeys]
      exact mem_groupKeys_of_row hr
    rcases List.mem_map.mp hm with ⟨p, hp, he⟩
    refine ⟨p, ?_, he⟩
    rw [hgs]
    exact (sortDesc_perm g0).mem_iff.mpr hp
  · intro g hg
    have hg0 : g ∈ g0 := by
      rw [hgs] at hg
      exact (sortDesc_perm g0).mem_iff.mp hg
    constructor
    · apply exists_row_of_mem_groupKeys
      rw [← hkeys]
      exact List.mem_map_of_mem Prod.fst hg0
    · exact hmem g hg0
  · have hnd : (g0.map Prod.fst).Nodup := by
      rw [hkeys]
      exact groupKeys_nodup T key
    rw [hgs]
    exact (((sortDesc_perm g0).map Prod.fst).nodup_iff).mpr hnd
  · have hpw : g0.Pairwise (fun p q => cellLe p.1 q.1 = true ∧ p.1 ≠ q.1) := by
      have hgk := groupKeys_pairwise T key
      rw [← hkeys, List.pairwise_map] at hgk
      exact hgk
    rw [hgs]
    exact sortDesc_pairwise_stable hpw
  · intro n hn
    unfold bar_series
    rw [hens, hsg]
    show (if n = 0 then Except.ok (sortDesc g0)
        else Except.ok (pdHead n (sortDesc g0)) : Except String (List (Cell × ℚ)))
        = Except.ok (gsAll.take n.toNat)
    rw [if_neg (by omega : ¬ n = 0)]
    unfold pdHead
    rw [if_pos (le_of_lt hn), hgs]
  · unfold bar_series
    rw [hens, hsg]
    show (if (0 : Int) = 0 then Except.ok (sortDesc g0)
        else Except.ok (pdHead 0 (sortDesc g0)) : Except String (List (Cell × ℚ)))
        = Except.ok gsAll
    rw [if_pos rfl, hgs]

/-- C4 witness: the amended statement instantiated at the tie table. -/
theorem claim4_witness :
    (∀ r ∈ tieTbl.rows, ∃ g ∈ [(Cell.num 1, (10 : ℚ)), (Cell.num 2, 10)],
        g.1 = getCell r "k")
    ∧ (∀ g ∈ [(Cell.num 1, (10 : ℚ)), (Cell.num 2, 10)],
        (∃ r ∈ tieTbl.rows, getCell r "k" = g.1)
        ∧ sumCells ((groupRows tieTbl "k" g.1).map (fun r => getCell r "Item_Outlet_Sales"))
            = Except.ok g.2)
    ∧ (([(Cell.num 1, (10 : ℚ)), (Cell.num 2, 10)]).map Prod.fst).Nodup
    ∧ ([(Cell.num 1, (10 : ℚ)), (Cell.num 2, 10)]).Pairwise compDesc
    ∧ (∀ n : Int, 0 < n → bar_series tieTbl "k" (some n)
        = Except.ok (([(Cell.num 1, (10 : ℚ)), (Cell.num 2, 10)]).take n.toNat))
    ∧ bar_series tieTbl "k" (some 0)
        = Except.ok [(Cell.num 1, (10 : ℚ)), (Cell.num 2, 10)] :=
  claim4_ranked_groups tieTbl "k" [(Cell.num 1, 10), (Cell.num 2, 10)]
    (by with_unfolding_all decide)

/-! Pearson correlation: symmetry and diagonal. -/

theorem pairColumn_swap (T : Table) (c1 c2 : String) :
    pairColumn T c2 c1 = (pairColumn T c1 c2).map Prod.swap := by
  unfold pairColumn
  rw [List.map_filterMap]
  congr 1
  funext r
  cases toNum (getCell r c1) <;> cases toNum (getCell r c2) <;> rfl

theorem map_swap_fst (ps : List (ℚ × ℚ)) :
    (ps.map Prod.swap).map Prod.fst = ps.map Prod.snd := by
  rw [List.map_map]
  rfl

theorem map_swap_snd (ps : List (ℚ × ℚ)) :
    (ps.map Prod.swap).map Prod.snd = ps.map Prod.fst := by
  rw [List.map_map]
  rfl

theorem sXY_swap (ps : List (ℚ × ℚ)) : sXY (ps.map Prod.swap) = sXY ps := by
  unfold sXY
  rw [map_swap_fst, map_swap_snd, List.map_map]
  apply congrArg List.sum
  apply List.map_congr_left
  intro p _
  show (p.2 - qmean (ps.map Prod.snd)) * (p.1 - qmean (ps.map Prod.fst))
      = (p.1 - qmean (ps.map Prod.fst)) * (p.2 - qmean (ps.map Prod.snd))
  ring

theorem sXX_swap (ps : List (ℚ × ℚ)) : sXX (ps.map Prod.swap) = sYY ps := by
  unfold sXX sYY
  rw [map_swap_fst, List.map_map]
  apply congrArg List.sum
  apply List.map_congr_left
  intro p _
  rfl

theorem sYY_swap (ps : List (ℚ × ℚ)) : sYY (ps.map Prod.swap) = sXX ps := by
  unfold sXX sYY
  rw [map_swap_snd, List.map_map]
  apply congrArg List.sum
  apply List.map_congr_left
  intro p _
  rfl

theorem corrEntry_swap (ps : List (ℚ × ℚ)) : corrEntry (ps.map Prod.swap) = corrEntry ps := by
  unfold corrEntry
  rw [sXY_swap, sXX_swap, sYY_swap, mul_comm]

theorem pairColumn_diag {T : Table} {c : String} :
    ∀ p ∈ pairColumn T c c, p.1 = p.2 := by
  intro p hp
  unfold pairColumn at hp
  rcases List.mem_filterMap.mp hp with ⟨r, _, he⟩
  cases h1 : toNum (getCell r c) with
  | none => rw [h1] at he; cases he
  | some x => rw [h1] at he; cases he; rfl

theorem sXX_nonneg (ps : List (ℚ × ℚ)) : 0 ≤ sXX ps := by
  unfold sXX
  apply List.sum_nonneg
  intro x hx
  rcases List.mem_map.mp hx with ⟨p, _, he⟩
  rw [← he]
  exact sq_nonneg _

theorem sXY_diag {ps : List (ℚ × ℚ)} (h : ∀ p ∈ ps, p.1 = p.2) : sXY ps = sXX ps := by
  unfold sXY sXX
  have hm : ps.map Prod.snd = ps.map Prod.fst := by
    apply List.map_congr_left
    intro p hp
    exact (h p hp).symm
  rw [hm]
  apply congrArg List.sum
  apply List.map_congr_left
  intro p hp
  rw [← h p hp]
  ring

theorem sYY_diag {ps : List (ℚ × ℚ)} (h : ∀ p ∈ ps, p.1 = p.2) : sYY ps = sXX ps := by
  unfold sYY sXX
  have hm : ps.map Prod.snd = ps.map Prod.fst := by
    apply List.map_congr_left
    intro p hp
    exact (h p hp).symm
  rw [hm]
  apply congrArg List.sum
  apply List.map_congr_left
  intro p hp
  rw [← h p hp]

/-- A Pearson entry of a column against itself is exactly 1 when the
centred square sum is nonzero. -/
theorem corrEntry_diag {ps : List (ℚ × ℚ)} (h : ∀ p ∈ ps, p.1 = p.2)
    (hxx : sXX ps ≠ 0) : corrEntry ps = 1 := by
  unfold corrEntry
  rw [sXY_diag h, sYY_diag h]
  have hpos : (0 : ℝ) < ((sXX ps : ℚ) : ℝ) := by
    have h0 : (0 : ℚ) < sXX ps := lt_of_le_of_ne (sXX_nonneg ps) (Ne.symm hxx)
    exact_mod_cast h0
  rw [Real.sqrt_mul_self (le_of_lt hpos)]
  exact div_self (ne_of_gt hpos)

theorem round2_one : round2 1 = 1 := by
  unfold round2
  have h : ((1 : ℝ) * 100) = ((100 : ℤ) : ℝ) := by norm_num
  rw [h, round_intCast]
  norm_num

/-- C5: the rounded correlation matrix the heatmap displays is symmetric,
and its diagonal entry is exactly 1 for every kept column of nonzero
variance. -/
theorem claim5_corr_matrix (T : Table) (cs : Option (List String)) (kept : List String)
    (_hk : fig_corr_heatmap T cs = Except.ok kept) :
    (∀ i j, corrM T kept i j = corrM T kept j i)
    ∧ (∀ i, sXX (pairColumn T (kept.getD i "") (kept.getD i "")) ≠ 0 →
        corrM T kept i i = 1) := by
  constructor
  · intro i j
    unfold corrM
    rw [pairColumn_swap T (kept.getD i "") (kept.getD j ""), corrEntry_swap]
  · intro i hxx
    unfold corrM
    rw [corrEntry_diag pairColumn_diag hxx, round2_one]

/-- Two numeric columns with nonzero variance. -/
def corrTbl : Table :=
  ⟨["Item_Weight", "Item_MRP"],
   [[("Item_Weight", Cell.num 2), ("Item_MRP", Cell.num 1)],
    [("Item_Weight", Cell.num 5), ("Item_MRP", Cell.num 3)]]⟩

/-- C5 witness: symmetry of the (0,1) entry and a diagonal 1 at a column
whose variance is concretely nonzero. -/
theorem claim5_witness :
    corrM corrTbl ["Item_Weight", "Item_MRP"] 0 1
      = corrM corrTbl ["Item_Weight", "Item_MRP"] 1 0
    ∧ corrM corrTbl ["Item_Weight", "Item_MRP"] 0 0 = 1 :=
  ⟨(claim5_corr_matrix corrTbl none ["Item_Weight", "Item_MRP"]
      (by with_unfolding_all decide)).1 0 1,
   (claim5_corr_matrix corrTbl none ["Item_Weight", "Item_MRP"]
      (by with_unfolding_all decide)).2 0 (by with_unfolding_all decide)⟩

/-! Chart schema-error semantics. -/

theorem ensure_single_error {T : Table} {a : String} (h : a ∉ T.cols) :
    ensure_cols T [a] = Except.error schemaErr :=
  ensure_cols_error_iff.mpr (fun hall => h (hall a (List.mem_singleton_self a)))

theorem ensure_pair_error {T : Table} {a b : String} (h : a ∉ T.cols ∨ b ∉ T.cols) :
    ensure_cols T [a, b] = Except.error schemaErr :=
  ensure_cols_error_iff.mpr (fun hall => by
    rcases h with h | h
    · exact h (hall a (List.mem_cons_self a [b]))
    · exact h (hall b (List.mem_cons_of_mem a (List.mem_singleton_self b))))

/-- A table with only `Item_MRP`, so some of the heatmap's default
columns are absent. -/
def mrpOnlyTbl : Table := ⟨["Item_MRP"], []⟩

/-- C7 counterexample: `Item_Weight` is requested (among the defaults)
and absent, yet the heatmap succeeds on the remaining column instead of
raising. -/
theorem claim7_counterexample :
    "Item_Weight" ∈ defaultCorrCols
    ∧ "Item_Weight" ∉ mrpOnlyTbl.cols
    ∧ fig_corr_heatmap mrpOnlyTbl none = Except.ok ["Item_MRP"] := by
  refine ⟨?_, ?_, ?_⟩ <;> decide

/-- C7 (amended): every chart builder raises the schema error when a
required column is absent — the trend chart requires only the sales
column, and the scatter's colour/hover dimensions are optional and never
raise — except the correlation heatmap, which silently drops requested
columns that are absent and raises exactly when none of the requested
columns is present. -/
theorem claim7_chart_schema_errors (T : Table) :
    (∀ dc freq, "Item_Outlet_Sales" ∉ T.cols →
        fig_sales_trend T dc freq = Except.error schemaErr)
    ∧ (∀ bins q, "Item_MRP" ∉ T.cols →
        fig_mrp_distribution T bins q = Except.error schemaErr)
    ∧ (∀ n, ("Item_Outlet_Sales" ∉ T.cols ∨ "Item_Type" ∉ T.cols) →
        fig_sales_by_item_type T n = Except.error schemaErr)
    ∧ (("Item_Outlet_Sales" ∉ T.cols ∨ "Outlet_Type" ∉ T.cols) →
        fig_sales_by_outlet_type T = Except.error schemaErr)
    ∧ (("Item_Outlet_Sales" ∉ T.cols ∨ "Outlet_Size" ∉ T.cols) →
        fig_sales_by_outlet_size T = Except.error schemaErr)
    ∧ (∀ hole, ("Item_Outlet_Sales" ∉ T.cols ∨ "Outlet_Location_Type" ∉ T.cols) →
        fig_location_contribution T hole = Except.error schemaErr)
    ∧ (∀ color, ("Item_Visibility" ∉ T.cols ∨ "Item_Outlet_Sales" ∉ T.cols) →
        fig_visibility_scatter T color = Except.error schemaErr)
    ∧ (∀ color, "Item_Visibility" ∈ T.cols → "Item_Outlet_Sales" ∈ T.cols →
        ∃ v, fig_visibility_scatter T color = Except.ok v)
    ∧ (∀ cat lg, ("Item_Outlet_Sales" ∉ T.cols ∨ cat ∉ T.cols) →
        fig_sales_box_by_category T cat lg = Except.error schemaErr)
    ∧ (∀ cs, fig_corr_heatmap T cs = Except.error corrErr ↔
        ∀ c ∈ cs.getD defaultCorrCols, c ∉ T.cols) := by
  refine ⟨?_, ?_, ?_, ?_, ?_, ?_, ?_, ?_, ?_, ?_⟩
  · intro dc freq h
    unfold fig_sales_trend
    rw [ensure_single_error h]
  · intro bins q h
    unfold fig_mrp_distribution
    rw [ensure_single_error h]
  · intro n h
    unfold fig_sales_by_item_type bar_series
    rw [ensure_pair_error h]
  · intro h
    unfold fig_sales_by_outlet_type bar_series
    rw [ensure_pair_error h]
  · intro h
    unfold fig_sales_by_outlet_size bar_series
    rw [ensure_pair_error h]
  · intro hole h
    unfold fig_location_contribution
    rw [ensure_pair_error h]
  · intro color h
    unfold fig_visibility_scatter
    rw [ensure_pair_error (by
      rcases h with h | h
      · exact Or.inl h
      · exact Or.inr h)]
  · intro color hv hs
    unfold fig_visibility_scatter
    rw [ensure_pair_ok hv hs]
    exact ⟨_, rfl⟩
  · intro cat lg h
    unfold fig_sales_box_by_category
    rw [ensure_pair_error h]
  · intro cs
    constructor
    · intro h c hc hcmem
      have h2 : (if ((cs.getD defaultCorrCols).filter (fun c => T.cols.contains c)).isEmpty
            = true
          then Except.error corrErr
          else Except.ok ((cs.getD defaultCorrCols).filter (fun c => T.cols.contains c)))
          = Except.error corrErr := h
      cases hkl : (cs.getD defaultCorrCols).filter (fun c => T.cols.contains c) with
      | nil =>
        have hcm : c ∈ (cs.getD defaultCorrCols).filter (fun c => T.cols.contains c) :=
          List.mem_filter.mpr ⟨hc, list_contains_iff.mpr hcmem⟩
        rw [hkl] at hcm
        cases hcm
      | cons x xs =>
        rw [hkl] at h2
        cases h2
    · intro hall
      have hkl : (cs.getD defaultCorrCols).filter (fun c => T.cols.contains c) = [] := by
        rw [List.filter_eq_nil_iff]
        intro c hc
        intro hcon
        exact hall c hc (list_contains_iff.mp hcon)
      show (if ((cs.getD defaultCorrCols).filter (fun c => T.cols.contains c)).isEmpty
            = true
          then Except.error corrErr
          else Except.ok ((cs.getD defaultCorrCols).filter (fun c => T.cols.contains c)))
          = Except.error corrErr
      rw [hkl]
      rfl

/-- A table with no columns at all. -/
def noColsTbl : Table := ⟨[], []⟩

/-- An empty table declaring only the scatter's two required columns. -/
def visTbl : Table := ⟨["Item_Visibility", "Item_Outlet_Sales"], []⟩

/-- C7 witness: concrete schema errors on a column-free table, a concrete
heatmap error when every requested column is absent, and a scatter that
succeeds with its optional colour column missing. -/
theorem claim7_witness :
    fig_sales_trend noColsTbl none Freq.M = Except.error schemaErr
    ∧ fig_mrp_distribution noColsTbl 30 true = Except.error schemaErr
    ∧ fig_sales_by_item_type noColsTbl none = Except.error schemaErr
    ∧ fig_corr_heatmap noColsTbl none = Except.error corrErr
    ∧ (∃ v, fig_visibility_scatter visTbl "Item_Type" = Except.ok v) :=
  ⟨(claim7_chart_schema_errors noColsTbl).1 none Freq.M (by decide),
   (claim7_chart_schema_errors noColsTbl).2.1 30 true (by decide),
   (claim7_chart_schema_errors noColsTbl).2.2.1 none (Or.inl (by decide)),
   ((claim7_chart_schema_errors noColsTbl).2.2.2.2.2.2.2.2.2 none).mpr (by decide),
   (claim7_chart_schema_errors visTbl).2.2.2.2.2.2.2.1 "Item_Type" (by decide) (by decide)⟩

/-! Trend-chart branch semantics. -/

theorem sumYears_ok_mem {T : Table} :
    ∀ {ys : List ℚ} {l : List (ℚ × ℚ)},
      sumYears T ys = Except.ok l →
      ∀ q ∈ l, sumCells ((yearRows T q.1).map (fun r => getCell r "Item_Outlet_Sales"))
          = Except.ok q.2 := by
  intro ys
  induction ys with
  | nil => intro l h; cases h; intro q hq; cases hq
  | cons y ys ih =>
    intro l h
    simp only [sumYears] at h
    cases hsc : sumCells ((yearRows T y).map (fun r => getCell r "Item_Outlet_Sales")) with
    | error e => rw [hsc] at h; cases h
    | ok s =>
      rw [hsc] at h
      cases hr : sumYears T ys with
      | error e => rw [hr] at h; cases h
      | ok rest =>
        rw [hr] at h
        cases h
        intro q hq
        rcases List.mem_cons.mp hq with h1 | h1
        · rw [h1]; exact hsc
        · exact ih hr q h1

/-- C8: the trend chart's exact fallback chain.  With a supplied,
present, non-empty date column it takes the date branch, whose points are
calendar-period buckets of the parsed dates with the coerced measure
summed per bucket; otherwise, when `Outlet_Establishment_Year` is
present, it sums the raw measure per numeric year; otherwise it falls
back to raw row order. -/
theorem claim8_trend_fallback (T : Table) (hs : "Item_Outlet_Sales" ∈ T.cols) :
    (∀ dc freq, dc ≠ "" → dc ∈ T.cols →
        fig_sales_trend T (some dc) freq = Except.ok (dateBranch T dc freq)
        ∧ ∀ p ∈ dateBranch T dc freq, ∃ i, p = (TrendX.pidx i, bucketSum T dc freq i))
    ∧ (∀ freq, "Outlet_Establishment_Year" ∈ T.cols →
        fig_sales_trend T none freq = yearBranchT T
        ∧ (∀ dc, dc ∉ T.cols → fig_sales_trend T (some dc) freq = yearBranchT T)
        ∧ (∀ ys, yearBranchT T = Except.ok ys →
            ∀ p ∈ ys, ∃ y, p.1 = TrendX.year y
              ∧ sumCells ((yearRows T y).map (fun r => getCell r "Item_Outlet_Sales"))
                  = Except.ok p.2))
    ∧ (∀ freq, "Outlet_Establishment_Year" ∉ T.cols →
        fig_sales_trend T none freq = Except.ok (idxBranch T)
        ∧ (∀ dc, dc ∉ T.cols → fig_sales_trend T (some dc) freq = Except.ok (idxBranch T))) := by
  have hens : ensure_cols T ["Item_Outlet_Sales"] = Except.ok () :=
    ensure_cols_ok_iff.mpr (by
      intro c hc
      rw [List.mem_singleton.mp hc]
      exact hs)
  refine ⟨?_, ?_, ?_⟩
  · intro dc freq hdc hmem
    constructor
    · unfold fig_sales_trend
      rw [hens]
      show (if dc ≠ "" ∧ T.cols.contains dc = true then Except.ok (dateBranch T dc freq)
        else if T.cols.contains "Outlet_Establishment_Year" = true then yearBranchT T
        else Except.ok (idxBranch T)) = Except.ok (dateBranch T dc freq)
      rw [if_pos ⟨hdc, list_contains_iff.mpr hmem⟩]
    · intro p hp
      unfold dateBranch at hp
      cases hm : (datedRows T dc).map (fun q => periodIdx freq q.1.1 q.1.2.1) with
      | nil => rw [hm] at hp; cases hp
      | cons i0 rest =>
        rw [hm] at hp
        have hp2 : p ∈ (List.range ((rest.foldl max i0 - rest.foldl min i0 + 1).toNat)).map
            (fun k => (TrendX.pidx (rest.foldl min i0 + k),
              bucketSum T dc freq (rest.foldl min i0 + k))) := hp
        rcases List.mem_map.mp hp2 with ⟨k, _, he⟩
        exact ⟨rest.foldl min i0 + k, he.symm⟩
  · intro freq hyr
    have hbody : fig_sales_trend T none freq = yearBranchT T := by
      unfold fig_sales_trend
      rw [hens]
      show (if T.cols.contains "Outlet_Establishment_Year" = true then yearBranchT T
        else Except.ok (idxBranch T)) = yearBranchT T
      rw [if_pos (list_contains_iff.mpr hyr)]
    refine ⟨hbody, ?_, ?_⟩
    · intro dc hdc
      unfold fig_sales_trend
      rw [hens]
      show (if dc ≠ "" ∧ T.cols.contains dc = true then Except.ok (dateBranch T dc freq)
        else if T.cols.contains "Outlet_Establishment_Year" = true then yearBranchT T
        else Except.ok (idxBranch T)) = yearBranchT T
      rw [if_neg (fun hand => hdc (list_contains_iff.mp hand.2)),
        if_pos (list_contains_iff.mpr hyr)]
    · intro ys hys p hp
      unfold yearBranchT at hys
      cases hsy : sumYears T (yearKeys T) with
      | error e => rw [hsy] at hys; cases hys
      | ok l =>
        rw [hsy] at hys
        cases hys
        rcases List.mem_map.mp hp with ⟨q, hq, he⟩
        refine ⟨q.1, ?_, ?_⟩
        · rw [← he]
        · rw [← he]
          exact sumYears_ok_mem hsy q hq
  · intro freq hyr
    have hbody : fig_sales_trend T none freq = Except.ok (idxBranch T) := by
      unfold fig_sales_trend
      rw [hens]
      show (if T.cols.contains "Outlet_Establishment_Year" = true then yearBranchT T
        else Except.ok (idxBranch T)) = Except.ok (idxBranch T)
      rw [if_neg (fun hc => hyr (list_contains_iff.mp hc))]
    refine ⟨hbody, ?_⟩
    intro dc hdc
    unfold fig_sales_trend
    rw [hens]
    show (if dc ≠ "" ∧ T.cols.contains dc = true then Except.ok (dateBranch T dc freq)
      else if T.cols.contains "Outlet_Establishment_Year" = true then yearBranchT T
      else Except.ok (idxBranch T)) = Except.ok (idxBranch T)
    rw [if_neg (fun hand => hdc (list_contains_iff.mp hand.2)),
      if_neg (fun hc => hyr (list_contains_iff.mp hc))]

/-- Two dated rows two months apart. -/
def dateTbl : Table :=
  ⟨["Item_Outlet_Sales", "d"],
   [[("d", Cell.date 2020 1 5), ("Item_Outlet_Sales", Cell.num 3)],
    [("d", Cell.date 2020 3 2), ("Item_Outlet_Sales", Cell.num 4)]]⟩

/-- C8 witness: the date branch fires when the date column is supplied
and present; with no date column and no establishment-year column the
index branch fires. -/
theorem claim8_witness :
    fig_sales_trend dateTbl (some "d") Freq.M = Except.ok (dateBranch dateTbl "d" Freq.M)
    ∧ fig_sales_trend dateTbl none Freq.M = Except.ok (idxBranch dateTbl) :=
  ⟨((claim8_trend_fallback dateTbl (by decide)).1 "d" Freq.M (by decide) (by decide)).1,
   ((claim8_trend_fallback dateTbl (by decide)).2.2 Freq.M (by decide)).1⟩

end SalesDash
